import Mathlib

/-!
Verification development for the authentication subsystem of a FastAPI
boilerplate backend (user registration, login, token refresh/logout,
current-user resolution).

Shallow embedding conventions:
* Timestamps are `Int` Unix seconds (`datetime.now(timezone.utc)` becomes an
  explicit `now : Int` argument).
* User / row identifiers are `Nat` (the UUID primary keys; only equality of
  identifiers matters to the code under verification).
* The relational store (`AsyncSession`) is an explicit `DB` value threaded
  through each operation; the redis denylist is an explicit `Redis` value.
* JWT strings are modelled by the inductive `Token`: the server-side codec
  (`jwt.encode` with the fixed secret) is injective, so a well-signed string
  is identified with its claim set, and every other string is `malformed`.
* Fallible Python code (raising `AppException` subclasses) returns
  `Except AppError`.
-/

/-- Exception taxonomy from `app/exceptions.py`, plus the storage-level
uniqueness violation (`IntegrityError`) a flush can raise when a unique
column is duplicated. Each carries the `message` argument. -/
inductive AppError where
  | BusinessException (message : String)
  | AuthenticationException (message : String)
  | ResourceNotFoundException (message : String)
  | IntegrityError
deriving DecidableEq, Repr

/-- Claim set of a signed JWT (`{"sub": ..., "exp": ..., "type": ...}`), from
`create_access_token` / `create_refresh_token` in `app/core/security.py`.
`sub` is the user identifier (`str(user.id)`; `none` models a payload without
a usable subject, i.e. Python's falsy `payload.get("sub")`); `exp` is the
absolute expiry timestamp (`none` models a payload without an `exp` claim,
which pyjwt accepts). -/
structure TokenClaims where
  sub : Option Nat
  exp : Option Int
  type : String
deriving DecidableEq, Repr

/-- A token string: either a claim set signed with the server secret
(the JWT serialization is injective, so the claims identify the string), or
any other string (malformed / wrong signature). -/
inductive Token where
  | signed (claims : TokenClaims)
  | malformed (raw : String)
deriving DecidableEq, Repr

/-- `ACCESS_TOKEN_EXPIRE_MINUTES` default from `app/core/config.py`. -/
def ACCESS_TOKEN_EXPIRE_MINUTES : Int := 30

/-- `REFRESH_TOKEN_EXPIRE_DAYS` default from `app/core/config.py`. -/
def REFRESH_TOKEN_EXPIRE_DAYS : Int := 7

/-- `create_access_token` (`app/core/security.py:47`): claims
`{sub, exp = now + ACCESS_TOKEN_EXPIRE_MINUTES minutes, type = "access"}`
signed with the server secret (default `expires_delta`). -/
def create_access_token (subject : Nat) (now : Int) : Token :=
  Token.signed ⟨some subject, some (now + ACCESS_TOKEN_EXPIRE_MINUTES * 60), "access"⟩

/-- `create_refresh_token` (`app/core/security.py:74`): claims
`{sub, exp = now + REFRESH_TOKEN_EXPIRE_DAYS days, type = "refresh"}`. -/
def create_refresh_token (subject : Nat) (now : Int) : Token :=
  Token.signed ⟨some subject, some (now + REFRESH_TOKEN_EXPIRE_DAYS * 86400), "refresh"⟩

/-- `decode_token` (`app/core/security.py:101`): `jwt.decode` returns the
payload of a well-signed token and raises (here: `none`) on malformed input,
bad signature, or expiry; pyjwt's `_validate_exp` rejects when
`exp <= now` (zero leeway) and skips the check when the payload has no
`exp` claim. -/
def decode_token (now : Int) (t : Token) : Option TokenClaims :=
  match t with
  | Token.malformed _ => none
  | Token.signed c =>
    match c.exp with
    | some e => if e ≤ now then none else some c
    | none => some c

/-- `get_password_hash` (`app/core/security.py:35`): bcrypt is an opaque
one-way function; it is modelled as an injective tagging of the plaintext,
which preserves exactly the property the service layer uses:
`verify_password p (get_password_hash p) = true`. -/
def get_password_hash (password : String) : String :=
  "bcrypt$" ++ password

/-- `verify_password` (`app/core/security.py:22`): true iff the digest was
produced from this plaintext. -/
def verify_password (plain_password hashed_password : String) : Bool :=
  hashed_password == get_password_hash plain_password

/-- `User` row (`app/models/user.py:17` with `UUIDMixin`, `TimestampMixin`,
`SoftDeleteMixin`). -/
structure User where
  id : Nat
  email : String
  username : String
  hashed_password : String
  full_name : Option String
  is_active : Bool
  is_superuser : Bool
  is_verified : Bool
  created_at : Int
  updated_at : Int
  deleted_at : Option Int
deriving DecidableEq, Repr

/-- `RefreshToken` row (`app/models/user.py:66`). The `token` column stores
the serialized JWT string, here a `Token`. -/
structure RefreshToken where
  id : Nat
  token : Token
  user_id : Nat
  expires_at : Int
  created_at : Int
  revoked_at : Option Int
deriving DecidableEq, Repr

/-- `RefreshToken.is_revoked` (`app/models/user.py:98`):
`revoked_at is not None`. -/
def RefreshToken.is_revoked (r : RefreshToken) : Bool :=
  r.revoked_at.isSome

/-- `RefreshToken.is_expired` (`app/models/user.py:107`):
`datetime.now(timezone.utc) > self.expires_at`. -/
def RefreshToken.is_expired (r : RefreshToken) (now : Int) : Bool :=
  decide (now > r.expires_at)

/-- `RefreshToken.is_valid` (`app/models/user.py:116`):
`not is_revoked and not is_expired`. -/
def RefreshToken.is_valid (r : RefreshToken) (now : Int) : Bool :=
  !r.is_revoked && !(r.is_expired now)

/-- `RefreshToken.revoke` (`app/models/user.py:125`):
`self.revoked_at = datetime.now(timezone.utc)` — unconditional. -/
def RefreshToken.revoke (r : RefreshToken) (now : Int) : RefreshToken :=
  { r with revoked_at := some now }

/-- The relational store: the `users` and `refresh_tokens` tables plus a
counter supplying fresh row identifiers (`uuid.uuid4` defaults). -/
structure DB where
  users : List User
  refresh_tokens : List RefreshToken
  next_id : Nat
deriving DecidableEq, Repr

/-- The redis denylist: `(key, absolute expiry)` pairs. `SETEX key ttl`
stores the key until `now + ttl`; keys vanish at their expiry instant. Keys
here are the access-token strings (the code prepends the constant key
namespace string, an injective transformation dropped from the model). -/
structure Redis where
  blacklist : List (Token × Int)
deriving DecidableEq, Repr

/-- `redis.setex(key, ttl, "1")`. -/
def Redis.setex (r : Redis) (t : Token) (ttl now : Int) : Redis :=
  ⟨(t, now + ttl) :: r.blacklist⟩

/-- `redis.exists(key)` at time `now`: a key is present while `now` is
strictly before its expiry instant. -/
def Redis.existsKey (r : Redis) (t : Token) (now : Int) : Bool :=
  r.blacklist.any (fun e => e.1 == t && decide (now < e.2))

/-- `UserRepo.get_by_email` (`app/crud/user_repo.py:20`), via
`CRUDBase.get_by`: first row whose `email` column equals the argument — note
no soft-delete filter is applied. -/
def UserRepo.get_by_email (db : DB) (email : String) : Option User :=
  db.users.find? (fun u => u.email == email)

/-- `UserRepo.get_by_username` (`app/crud/user_repo.py:37`), via
`CRUDBase.get_by`; no soft-delete filter. -/
def UserRepo.get_by_username (db : DB) (username : String) : Option User :=
  db.users.find? (fun u => u.username == username)

/-- `UserRepo.get_by_email_or_username` (`app/crud/user_repo.py:54`):
`WHERE email = x OR username = x`. -/
def UserRepo.get_by_email_or_username (db : DB) (email_or_username : String) : Option User :=
  db.users.find? (fun u => u.email == email_or_username || u.username == email_or_username)

/-- `CRUDBase.get` for users (`app/crud/base.py:38`): `WHERE id = id`. -/
def UserRepo.get (db : DB) (id : Nat) : Option User :=
  db.users.find? (fun u => u.id == id)

/-- `RefreshTokenRepo.get_by_token` (`app/crud/user_repo.py:162`):
first row whose `token` column equals the argument. -/
def RefreshTokenRepo.get_by_token (db : DB) (token : Token) : Option RefreshToken :=
  db.refresh_tokens.find? (fun r => r.token == token)

/-- `RefreshTokenRepo.get_valid_by_token` (`app/crud/user_repo.py:179`):
returns the row found by `get_by_token` only when `is_valid` holds. -/
def RefreshTokenRepo.get_valid_by_token (db : DB) (now : Int) (token : Token) :
    Option RefreshToken :=
  match RefreshTokenRepo.get_by_token db token with
  | some r => if r.is_valid now then some r else none
  | none => none

/-- `RefreshTokenRepo.create` (`app/crud/user_repo.py:199`): inserts a new
row with a fresh id and `revoked_at = None`; the flush raises
`IntegrityError` when the unique `token` column is duplicated. -/
def RefreshTokenRepo.create (db : DB) (user_id : Nat) (token : Token)
    (expires_at now : Int) : Except AppError (RefreshToken × DB) :=
  if db.refresh_tokens.any (fun r => r.token == token) then
    Except.error AppError.IntegrityError
  else
    let row : RefreshToken := ⟨db.next_id, token, user_id, expires_at, now, none⟩
    Except.ok (row, { db with refresh_tokens := row :: db.refresh_tokens,
                              next_id := db.next_id + 1 })

/-- In-place mutation of the single row returned by `get_by_token`
(`refresh_token.revoke()` on the ORM object): replace the first row whose
`token` matches (the `token` column is unique, so at most one matches). -/
def revokeFirst (l : List RefreshToken) (t : Token) (now : Int) : List RefreshToken :=
  match l with
  | [] => []
  | r :: rs => if r.token == t then r.revoke now :: rs else r :: revokeFirst rs t now

/-- `RefreshTokenRepo.revoke` (`app/crud/user_repo.py:227`): look up by token
string; if found, set its `revoked_at` to now and return it; if absent,
return `None` leaving the store untouched. -/
def RefreshTokenRepo.revoke (db : DB) (now : Int) (token : Token) :
    Option RefreshToken × DB :=
  match RefreshTokenRepo.get_by_token db token with
  | none => (none, db)
  | some r => (some (r.revoke now),
               { db with refresh_tokens := revokeFirst db.refresh_tokens token now })

/-- `RefreshTokenRepo.revoke_user_tokens` (`app/crud/user_repo.py:249`):
revoke every currently non-revoked row of the user, returning them. -/
def RefreshTokenRepo.revoke_user_tokens (db : DB) (now : Int) (user_id : Nat) :
    List RefreshToken × DB :=
  let touched := db.refresh_tokens.filter
    (fun r => r.user_id == user_id && r.revoked_at.isNone)
  let updated := db.refresh_tokens.map
    (fun r => if r.user_id == user_id && r.revoked_at.isNone then r.revoke now else r)
  (touched.map (fun r => r.revoke now), { db with refresh_tokens := updated })

/-- `RefreshTokenRepo.delete_expired` (`app/crud/user_repo.py:278`):
physically delete rows with `expires_at < now`, returning the count. -/
def RefreshTokenRepo.delete_expired (db : DB) (now : Int) : Nat × DB :=
  let kept := db.refresh_tokens.filter (fun r => !(decide (r.expires_at < now)))
  (db.refresh_tokens.length - kept.length, { db with refresh_tokens := kept })

/-- `UserCreate` schema (`app/schemas/user.py`). -/
structure UserCreate where
  email : String
  username : String
  full_name : Option String
  password : String
deriving DecidableEq, Repr

/-- `UserLogin` schema (`app/schemas/user.py`). -/
structure UserLogin where
  username : String
  password : String
deriving DecidableEq, Repr

/-- `TokenResponse` schema (`app/schemas/token.py`); `token_type` defaults
to `"bearer"`. -/
structure TokenResponse where
  access_token : Token
  refresh_token : Token
  token_type : String
deriving DecidableEq, Repr

/-- `UserRepo.create` (`app/crud/user_repo.py:77`): hash the password into
`hashed_password`, insert a row with column defaults
`is_active=True, is_superuser=False, is_verified=False, deleted_at=None`. -/
def UserRepo.create (db : DB) (obj_in : UserCreate) (now : Int) : User × DB :=
  let u : User := ⟨db.next_id, obj_in.email, obj_in.username,
                   get_password_hash obj_in.password, obj_in.full_name,
                   true, false, false, now, now, none⟩
  (u, { db with users := u :: db.users, next_id := db.next_id + 1 })

/-- `AuthService.register` (`app/services/auth_service.py:37`). -/
def AuthService.register (db : DB) (now : Int) (user_in : UserCreate) :
    Except AppError (User × DB) :=
  match UserRepo.get_by_email db user_in.email with
  | some _ => Except.error (AppError.BusinessException "邮箱已被注册")
  | none =>
    match UserRepo.get_by_username db user_in.username with
    | some _ => Except.error (AppError.BusinessException "用户名已被占用")
    | none => Except.ok (UserRepo.create db user_in now)

/-- `AuthService.login` (`app/services/auth_service.py:69`). -/
def AuthService.login (db : DB) (now : Int) (user_in : UserLogin) :
    Except AppError (TokenResponse × DB) :=
  match UserRepo.get_by_email_or_username db user_in.username with
  | none => Except.error (AppError.AuthenticationException "用户名或密码错误")
  | some user =>
    if !(verify_password user_in.password user.hashed_password) then
      Except.error (AppError.AuthenticationException "用户名或密码错误")
    else if !user.is_active then
      Except.error (AppError.AuthenticationException "账户已被禁用")
    else
      let access_token := create_access_token user.id now
      let refresh_token := create_refresh_token user.id now
      let expires_at := now + REFRESH_TOKEN_EXPIRE_DAYS * 86400
      match RefreshTokenRepo.create db user.id refresh_token expires_at now with
      | Except.error e => Except.error e
      | Except.ok (_, db2) => Except.ok (⟨access_token, refresh_token, "bearer"⟩, db2)

/-- `AuthService.refresh_tokens` (`app/services/auth_service.py:126`). The
Python guard `if not token_data or token_data.get("type") != "refresh"` is
split over the `none` match arm and the type test, with the same message. -/
def AuthService.refresh_tokens (db : DB) (now : Int) (refresh_token : Token) :
    Except AppError (TokenResponse × DB) :=
  match decode_token now refresh_token with
  | none => Except.error (AppError.AuthenticationException "无效的刷新令牌")
  | some token_data =>
    if token_data.type != "refresh" then
      Except.error (AppError.AuthenticationException "无效的刷新令牌")
    else
      match RefreshTokenRepo.get_valid_by_token db now refresh_token with
      | none => Except.error (AppError.AuthenticationException "刷新令牌已过期或被撤回")
      | some token_obj =>
        match UserRepo.get db token_obj.user_id with
        | none => Except.error (AppError.AuthenticationException "用户不存在或已被禁用")
        | some user =>
          if !user.is_active then
            Except.error (AppError.AuthenticationException "用户不存在或已被禁用")
          else
            let db1 : DB :=
              { db with refresh_tokens := revokeFirst db.refresh_tokens refresh_token now }
            let access_token := create_access_token user.id now
            let new_refresh_token := create_refresh_token user.id now
            let expires_at := now + REFRESH_TOKEN_EXPIRE_DAYS * 86400
            match RefreshTokenRepo.create db1 user.id new_refresh_token expires_at now with
            | Except.error e => Except.error e
            | Except.ok (_, db2) =>
              Except.ok (⟨access_token, new_refresh_token, "bearer"⟩, db2)

/-- `AuthService.logout` (`app/services/auth_service.py:187`): best-effort —
blacklist the access token for its remaining lifetime when it decodes and
`ttl = max(0, exp - now) > 0` (`exp` read with `.get("exp", 0)`), then
unconditionally revoke the presented refresh token by value. Total: never
raises. -/
def AuthService.logout (db : DB) (redis : Redis) (now : Int)
    (access_token refresh_token : Token) : DB × Redis :=
  let redis2 :=
    match decode_token now access_token with
    | some token_data =>
      let exp := token_data.exp.getD 0
      let ttl := max 0 (exp - now)
      if ttl > 0 then redis.setex access_token ttl now else redis
    | none => redis
  ((RefreshTokenRepo.revoke db now refresh_token).2, redis2)

/-- `AuthService.get_current_user` (`app/services/auth_service.py:219`):
denylist check first, then decode + type check, then subject extraction
(Python's falsy `not user_id` is the `none` subject), then user lookup and
active check. -/
def AuthService.get_current_user (db : DB) (redis : Redis) (now : Int)
    (token : Token) : Except AppError User :=
  if redis.existsKey token now then
    Except.error (AppError.AuthenticationException "令牌已失效")
  else
    match decode_token now token with
    | none => Except.error (AppError.AuthenticationException "无效的访问令牌")
    | some token_data =>
      if token_data.type != "access" then
        Except.error (AppError.AuthenticationException "无效的访问令牌")
      else
        match token_data.sub with
        | none => Except.error (AppError.AuthenticationException "无效的令牌载荷")
        | some user_id =>
          match UserRepo.get db user_id with
          | none => Except.error (AppError.ResourceNotFoundException "用户不存在")
          | some user =>
            if !user.is_active then
              Except.error (AppError.AuthenticationException "账户已被禁用")
            else Except.ok user

/-- `get_db` (`app/core/database.py:30`): the per-request session commits the
state produced by the request body on success and rolls back to the initial
state when the body raises. -/
def get_db {α : Type} (db : DB) (f : DB → Except AppError (α × DB)) :
    Except AppError α × DB :=
  match f db with
  | Except.ok (a, db2) => (Except.ok a, db2)
  | Except.error e => (Except.error e, db)

/-! ## Helper lemmas -/

/-- `find?` returns the distinguished element when it is the only one
satisfying the predicate. -/
theorem find?_eq_of_mem_of_unique {α : Type} {p : α → Bool} {l : List α} {a : α}
    (ha : a ∈ l) (hpa : p a = true) (huniq : ∀ b ∈ l, p b = true → b = a) :
    l.find? p = some a := by
  induction l with
  | nil => cases ha
  | cons x xs ih =>
    by_cases hx : p x = true
    · have hxa : x = a := huniq x (List.mem_cons_self x xs) hx
      subst hxa
      rw [List.find?_cons_of_pos _ hx]
    · have hpx : ¬ p x = true := hx
      have ha' : a ∈ xs := by
        rcases List.mem_cons.mp ha with h | h
        · exact absurd (h ▸ hpa) hpx
        · exact h
      rw [List.find?_cons_of_neg _ hpx]
      exact ih ha' (fun b hb hpb => huniq b (List.mem_cons_of_mem _ hb) hpb)

/-- Revoking the first row matching a token keeps it the first match, now
revoked (`revoke` does not change the `token` column). -/
theorem revokeFirst_find? {l : List RefreshToken} {t : Token} {r : RefreshToken} (now : Int)
    (h : l.find? (fun x => x.token == t) = some r) :
    (revokeFirst l t now).find? (fun x => x.token == t) = some (r.revoke now) := by
  induction l with
  | nil => simp [List.find?] at h
  | cons x xs ih =>
    by_cases hx : (x.token == t) = true
    · rw [List.find?_cons_of_pos (p := fun y : RefreshToken => y.token == t) _ hx] at h
      injection h with h
      subst h
      unfold revokeFirst
      rw [if_pos hx]
      exact List.find?_cons_of_pos (p := fun y : RefreshToken => y.token == t) _ hx
    · rw [List.find?_cons_of_neg (p := fun y : RefreshToken => y.token == t) _ hx] at h
      unfold revokeFirst
      rw [if_neg hx]
      rw [List.find?_cons_of_neg (p := fun y : RefreshToken => y.token == t) _ hx]
      exact ih h

/-- `revokeFirst` does not change which token strings occur in the store. -/
theorem revokeFirst_any_token (l : List RefreshToken) (t s : Token) (now : Int) :
    (revokeFirst l t now).any (fun x => x.token == s) = l.any (fun x => x.token == s) := by
  induction l with
  | nil => rfl
  | cons x xs ih =>
    unfold revokeFirst
    by_cases hx : (x.token == t) = true
    · rw [if_pos hx]
      simp only [List.any_cons]
      rfl
    · rw [if_neg hx]
      simp only [List.any_cons, ih]

/-- A revoked row survives `revokeFirst` with the same id, still revoked. -/
theorem revokeFirst_preserves_revoked {l : List RefreshToken} {r : RefreshToken}
    (t : Token) (now : Int) (hmem : r ∈ l) (hrev : r.revoked_at ≠ none) :
    ∃ s, s ∈ revokeFirst l t now ∧ s.id = r.id ∧ s.revoked_at ≠ none := by
  induction l with
  | nil => cases hmem
  | cons x xs ih =>
    unfold revokeFirst
    by_cases hx : (x.token == t) = true
    · rw [if_pos hx]
      rcases List.mem_cons.mp hmem with h | h
      · subst h
        exact ⟨r.revoke now, List.mem_cons_self _ _, rfl, by simp [RefreshToken.revoke]⟩
      · exact ⟨r, List.mem_cons_of_mem _ h, rfl, hrev⟩
    · rw [if_neg hx]
      rcases List.mem_cons.mp hmem with h | h
      · subst h
        exact ⟨r, List.mem_cons_self _ _, rfl, hrev⟩
      · obtain ⟨s, hs, hid, hsrev⟩ := ih h
        exact ⟨s, List.mem_cons_of_mem _ hs, hid, hsrev⟩

/-- Inversion of a successful `get_valid_by_token`. -/
theorem get_valid_some_inv {db : DB} {now : Int} {t : Token} {r : RefreshToken}
    (h : RefreshTokenRepo.get_valid_by_token db now t = some r) :
    RefreshTokenRepo.get_by_token db t = some r ∧ r.is_valid now = true := by
  unfold RefreshTokenRepo.get_valid_by_token at h
  split at h
  · next r' heq =>
    split at h
    · next hv =>
      injection h with h
      subst h
      exact ⟨heq, hv⟩
    · simp at h
  · simp at h

/-! ## Claims -/

/-- C3 counterexample: the stored record for token `rt1` is already revoked
at time 5; revoking it again at time 10 returns the record with
`revoked_at` overwritten to 10 and rewrites the stored row — not the
timestamp-preserving no-op the claim asserts. -/
theorem revoke_rerevoke_counterexample :
    RefreshTokenRepo.revoke
        (⟨[], [⟨1, Token.malformed "rt1", 1, 100, 0, some 5⟩], 2⟩ : DB)
        10 (Token.malformed "rt1")
      = (some ⟨1, Token.malformed "rt1", 1, 100, 0, some 10⟩,
         ⟨[], [⟨1, Token.malformed "rt1", 1, 100, 0, some 10⟩], 2⟩)
    ∧ some (10 : Int) ≠ some (5 : Int) := by
  constructor
  · rfl
  · decide

/-- C3 (amended): `RefreshTokenRepo.revoke` on an already-revoked stored
token returns the record and leaves it revoked, but it is not a no-op: the
record's `revoked_at` is unconditionally overwritten with the current
time (`RefreshToken.revoke` sets it without checking). -/
theorem revoke_rerevoke_overwrites (db : DB) (now : Int) (t : Token) (r : RefreshToken)
    (hr : RefreshTokenRepo.get_by_token db t = some r) (_hrev : r.revoked_at ≠ none) :
    (RefreshTokenRepo.revoke db now t).1 = some (r.revoke now) ∧
    (r.revoke now).is_revoked = true ∧
    (r.revoke now).revoked_at = some now := by
  unfold RefreshTokenRepo.revoke
  rw [hr]
  exact ⟨rfl, rfl, rfl⟩

/-- Witness for C3's amended theorem at a concrete store. -/
theorem revoke_rerevoke_overwrites_witness :
    (RefreshTokenRepo.revoke
        (⟨[], [⟨1, Token.malformed "rt1", 1, 100, 0, some 5⟩], 2⟩ : DB)
        10 (Token.malformed "rt1")).1
      = some ⟨1, Token.malformed "rt1", 1, 100, 0, some 10⟩ := by
  have h := revoke_rerevoke_overwrites
      (⟨[], [⟨1, Token.malformed "rt1", 1, 100, 0, some 5⟩], 2⟩ : DB)
      10 (Token.malformed "rt1")
      ⟨1, Token.malformed "rt1", 1, 100, 0, some 5⟩
      (by decide) (by decide)
  exact h.1

/-- C8 counterexample: a stored, unrevoked record whose `expires_at` equals
the current instant is classified NOT expired by `is_expired`
(`now > expires_at` is strict), so `get_valid_by_token` returns it — the
claim asserts the opposite at the store layer. -/
theorem expiry_boundary_counterexample :
    RefreshToken.is_expired (⟨1, Token.malformed "rt1", 1, 100, 0, none⟩ : RefreshToken) 100
      = false
    ∧ RefreshTokenRepo.get_valid_by_token
        (⟨[], [⟨1, Token.malformed "rt1", 1, 100, 0, none⟩], 2⟩ : DB)
        100 (Token.malformed "rt1")
      = some ⟨1, Token.malformed "rt1", 1, 100, 0, none⟩ := by
  constructor
  · decide
  · rfl

/-- C8 (amended): at the boundary `expires_at = now`, the stored record is
NOT expired (`is_expired` needs strictly `now > expires_at`) and, when
unrevoked, `get_valid_by_token` still returns it; by contrast the codec
layer (pyjwt's `exp <= now` check inside `decode_token`) rejects a signed
token whose `exp` equals the current instant. -/
theorem expiry_boundary_amended (db : DB) (now : Int) (t : Token) (r : RefreshToken)
    (c : TokenClaims)
    (hr : RefreshTokenRepo.get_by_token db t = some r)
    (hexp : r.expires_at = now) (hnrev : r.revoked_at = none) (hc : c.exp = some now) :
    r.is_expired now = false ∧
    RefreshTokenRepo.get_valid_by_token db now t = some r ∧
    decode_token now (Token.signed c) = none := by
  have hexpired : r.is_expired now = false := by
    simp [RefreshToken.is_expired, hexp]
  refine ⟨hexpired, ?_, ?_⟩
  · unfold RefreshTokenRepo.get_valid_by_token
    rw [hr]
    simp [RefreshToken.is_valid, RefreshToken.is_revoked, hnrev, hexpired]
  · simp [decode_token, hc]

/-- Witness for C8's amended theorem at a concrete store and token. -/
theorem expiry_boundary_amended_witness :
    RefreshTokenRepo.get_valid_by_token
        (⟨[], [⟨1, Token.malformed "rt1", 1, 100, 0, none⟩], 2⟩ : DB)
        100 (Token.malformed "rt1")
      = some ⟨1, Token.malformed "rt1", 1, 100, 0, none⟩
    ∧ decode_token 100 (Token.signed ⟨some 1, some 100, "refresh"⟩) = none := by
  have h := expiry_boundary_amended
      (⟨[], [⟨1, Token.malformed "rt1", 1, 100, 0, none⟩], 2⟩ : DB)
      100 (Token.malformed "rt1")
      ⟨1, Token.malformed "rt1", 1, 100, 0, none⟩
      ⟨some 1, some 100, "refresh"⟩
      (by decide) (by decide) (by decide) (by decide)
  exact ⟨h.2.1, h.2.2⟩

/-- C9: both failing login shapes — unknown username/email, and existing
user with a wrong password — produce `AuthenticationException` with the
identical message, so the two failures are indistinguishable by error
text. -/
theorem login_uniform_error (db : DB) (now : Int) (in1 in2 : UserLogin) (u : User)
    (h1 : UserRepo.get_by_email_or_username db in1.username = none)
    (h2 : UserRepo.get_by_email_or_username db in2.username = some u)
    (hpw : verify_password in2.password u.hashed_password = false) :
    AuthService.login db now in1
      = Except.error (AppError.AuthenticationException "用户名或密码错误") ∧
    AuthService.login db now in2
      = Except.error (AppError.AuthenticationException "用户名或密码错误") := by
  constructor
  · unfold AuthService.login
    rw [h1]
  · unfold AuthService.login
    rw [h2]
    simp [hpw]

/-- Witness for C9 at a concrete store: `bob` does not exist, `alice`
exists with a different password; both attempts yield the same message. -/
theorem login_uniform_error_witness :
    AuthService.login
        (⟨[⟨1, "a@x.com", "alice", "bcrypt$pw123456", none, true, false, false, 0, 0, none⟩],
          [], 2⟩ : DB)
        0 ⟨"bob", "whatever"⟩
      = Except.error (AppError.AuthenticationException "用户名或密码错误") ∧
    AuthService.login
        (⟨[⟨1, "a@x.com", "alice", "bcrypt$pw123456", none, true, false, false, 0, 0, none⟩],
          [], 2⟩ : DB)
        0 ⟨"alice", "wrong-pass"⟩
      = Except.error (AppError.AuthenticationException "用户名或密码错误") := by
  exact login_uniform_error
      (⟨[⟨1, "a@x.com", "alice", "bcrypt$pw123456", none, true, false, false, 0, 0, none⟩],
        [], 2⟩ : DB)
      0 ⟨"bob", "whatever"⟩ ⟨"alice", "wrong-pass"⟩
      ⟨1, "a@x.com", "alice", "bcrypt$pw123456", none, true, false, false, 0, 0, none⟩
      (by decide) (by decide) (by decide)

/-- C6: `logout` is total (it returns a new store/denylist pair for every
pair of input tokens — it never raises). The denylist is written exactly
when the access token decodes and its remaining lifetime
`exp - now` (with `exp` read via `.get("exp", 0)`) is strictly positive,
and the entry's TTL is exactly `exp - now`; a non-positive TTL is never
written. Independently, the presented refresh token is always revoked by
value, a no-op on the store when absent. -/
theorem logout_best_effort (db : DB) (redis : Redis) (now : Int) (a_tok r_tok : Token) :
    (decode_token now a_tok = none →
        (AuthService.logout db redis now a_tok r_tok).2 = redis) ∧
    (∀ c, decode_token now a_tok = some c → 0 < c.exp.getD 0 - now →
        (AuthService.logout db redis now a_tok r_tok).2
          = redis.setex a_tok (c.exp.getD 0 - now) now) ∧
    (∀ c, decode_token now a_tok = some c → c.exp.getD 0 - now ≤ 0 →
        (AuthService.logout db redis now a_tok r_tok).2 = redis) ∧
    ((AuthService.logout db redis now a_tok r_tok).1
        = (RefreshTokenRepo.revoke db now r_tok).2) ∧
    (RefreshTokenRepo.get_by_token db r_tok = none →
        (AuthService.logout db redis now a_tok r_tok).1 = db) := by
  refine ⟨?_, ?_, ?_, ?_, ?_⟩
  · intro h
    unfold AuthService.logout
    rw [h]
  · intro c hc hpos
    unfold AuthService.logout
    rw [hc]
    have hmax : max 0 (c.exp.getD 0 - now) = c.exp.getD 0 - now :=
      max_eq_right (le_of_lt hpos)
    simp only [hmax]
    rw [if_pos hpos]
  · intro c hc hnonpos
    unfold AuthService.logout
    rw [hc]
    have hmax : max 0 (c.exp.getD 0 - now) = 0 := max_eq_left hnonpos
    simp only [hmax]
    rw [if_neg (by omega : ¬ ((0 : Int) > 0))]
  · rfl
  · intro h
    unfold AuthService.logout RefreshTokenRepo.revoke
    rw [h]

/-- Witness for C6 at concrete inputs: a live access token is denylisted
with TTL `exp - now = 95`; a decodable token without an `exp` claim
(TTL non-positive) is skipped; an absent refresh token leaves the store
untouched. -/
theorem logout_best_effort_witness :
    (AuthService.logout (⟨[], [], 0⟩ : DB) (⟨[]⟩ : Redis) 5
        (Token.signed ⟨some 1, some 100, "access"⟩) (Token.malformed "rt")).2
      = Redis.setex (⟨[]⟩ : Redis) (Token.signed ⟨some 1, some 100, "access"⟩) 95 5
    ∧ (AuthService.logout (⟨[], [], 0⟩ : DB) (⟨[]⟩ : Redis) 5
        (Token.signed ⟨some 1, none, "access"⟩) (Token.malformed "rt")).2
      = (⟨[]⟩ : Redis)
    ∧ (AuthService.logout (⟨[], [], 0⟩ : DB) (⟨[]⟩ : Redis) 5
        (Token.malformed "junk") (Token.malformed "rt")).1
      = (⟨[], [], 0⟩ : DB) := by
  refine ⟨?_, ?_, ?_⟩
  · have h := (logout_best_effort (⟨[], [], 0⟩ : DB) (⟨[]⟩ : Redis) 5
        (Token.signed ⟨some 1, some 100, "access"⟩) (Token.malformed "rt")).2.1
        ⟨some 1, some 100, "access"⟩ (by decide) (by decide)
    exact h
  · have h := (logout_best_effort (⟨[], [], 0⟩ : DB) (⟨[]⟩ : Redis) 5
        (Token.signed ⟨some 1, none, "access"⟩) (Token.malformed "rt")).2.2.1
        ⟨some 1, none, "access"⟩ (by decide) (by decide)
    exact h
  · exact (logout_best_effort (⟨[], [], 0⟩ : DB) (⟨[]⟩ : Redis) 5
        (Token.malformed "junk") (Token.malformed "rt")).2.2.2.2 (by decide)

/-- C4: after `logout` of a signed access token with strictly positive
remaining lifetime (`now < exp`), every `get_current_user` call with that
token before its natural expiry fails with the denylist rejection message —
against ANY relational store `db2` (no persistence lookup happens) and
regardless of the token's still-valid signature and `exp` claim; the
denylist check is the first check in `get_current_user`. -/
theorem logout_denylists_access (db db2 : DB) (redis : Redis) (now now2 : Int)
    (c : TokenClaims) (r_tok : Token) (e : Int)
    (hce : c.exp = some e) (hpos : now < e) (hnow2 : now2 < e) :
    AuthService.get_current_user db2
        ((AuthService.logout db redis now (Token.signed c) r_tok).2) now2 (Token.signed c)
      = Except.error (AppError.AuthenticationException "令牌已失效") := by
  have hdec : decode_token now (Token.signed c) = some c := by
    simp [decode_token, hce, not_le.mpr hpos]
  have hredis : (AuthService.logout db redis now (Token.signed c) r_tok).2
      = Redis.setex redis (Token.signed c) (e - now) now := by
    have h := (logout_best_effort db redis now (Token.signed c) r_tok).2.1 c hdec
      (by rw [hce]; simpa using hpos)
    rw [h, hce]
    rfl
  rw [hredis]
  have hex : Redis.existsKey (Redis.setex redis (Token.signed c) (e - now) now)
      (Token.signed c) now2 = true := by
    unfold Redis.existsKey Redis.setex
    simp only [List.any_cons]
    have harith : now + (e - now) = e := by omega
    simp [harith, hnow2]
  unfold AuthService.get_current_user
  rw [hex]
  rfl

/-- Witness for C4 at a concrete token and stores. -/
theorem logout_denylists_access_witness :
    AuthService.get_current_user (⟨[], [], 0⟩ : DB)
        ((AuthService.logout (⟨[], [], 0⟩ : DB) (⟨[]⟩ : Redis) 5
            (Token.signed ⟨some 1, some 100, "access"⟩) (Token.malformed "rt")).2)
        6 (Token.signed ⟨some 1, some 100, "access"⟩)
      = Except.error (AppError.AuthenticationException "令牌已失效") := by
  exact logout_denylists_access (⟨[], [], 0⟩ : DB) (⟨[], [], 0⟩ : DB) (⟨[]⟩ : Redis)
      5 6 ⟨some 1, some 100, "access"⟩ (Token.malformed "rt") 100
      (by decide) (by decide) (by decide)

/-- C10: revocation is monotone across the repository's operations. A
stored row with `revoked_at ≠ none` survives `revoke`, `revoke_user_tokens`
and `create` with its id and a non-null `revoked_at` (no operation resets
`revoked_at` to null); under `delete_expired` it survives unless its
`expires_at` has passed (physical deletion is the only removal); and
`get_valid_by_token` never returns a row whose `revoked_at` is set. -/
theorem revocation_monotone (db : DB) (now : Int) (t newTok : Token)
    (user_id : Nat) (r : RefreshToken)
    (hmem : r ∈ db.refresh_tokens) (hrev : r.revoked_at ≠ none) :
    (∃ s, s ∈ (RefreshTokenRepo.revoke db now t).2.refresh_tokens ∧
        s.id = r.id ∧ s.revoked_at ≠ none) ∧
    (∃ s, s ∈ (RefreshTokenRepo.revoke_user_tokens db now user_id).2.refresh_tokens ∧
        s.id = r.id ∧ s.revoked_at ≠ none) ∧
    (∀ row db2 expires_at,
        RefreshTokenRepo.create db user_id newTok expires_at now = Except.ok (row, db2) →
        r ∈ db2.refresh_tokens) ∧
    (¬ (r.expires_at < now) →
        r ∈ (RefreshTokenRepo.delete_expired db now).2.refresh_tokens) ∧
    (∀ s, RefreshTokenRepo.get_valid_by_token db now t = some s →
        s.revoked_at = none) := by
  refine ⟨?_, ?_, ?_, ?_, ?_⟩
  · unfold RefreshTokenRepo.revoke
    cases hg : RefreshTokenRepo.get_by_token db t with
    | none => exact ⟨r, hmem, rfl, hrev⟩
    | some r0 =>
      obtain ⟨s, hs, hid, hsrev⟩ := revokeFirst_preserves_revoked t now hmem hrev
      exact ⟨s, hs, hid, hsrev⟩
  · unfold RefreshTokenRepo.revoke_user_tokens
    refine ⟨if r.user_id == user_id && r.revoked_at.isNone then r.revoke now else r, ?_, ?_, ?_⟩
    · simpa using List.mem_map_of_mem
        (fun x => if x.user_id == user_id && x.revoked_at.isNone then x.revoke now else x) hmem
    · by_cases hc : (r.user_id == user_id && r.revoked_at.isNone) = true
      · rw [if_pos hc]; rfl
      · rw [if_neg hc]
    · have hnone : r.revoked_at.isNone = false := by
        cases hra : r.revoked_at with
        | none => exact absurd hra hrev
        | some v => rfl
      rw [hnone]
      simpa using hrev
  · intro row db2 expires_at hcr
    unfold RefreshTokenRepo.create at hcr
    split at hcr
    · simp at hcr
    · injection hcr with hcr
      have hdb2 : db2 = { db with
          refresh_tokens := ⟨db.next_id, newTok, user_id, expires_at, now, none⟩ ::
            db.refresh_tokens,
          next_id := db.next_id + 1 } := (congrArg Prod.snd hcr).symm
      rw [hdb2]
      exact List.mem_cons_of_mem _ hmem
  · intro hkeep
    unfold RefreshTokenRepo.delete_expired
    simp only []
    exact List.mem_filter.mpr ⟨hmem, by simpa using hkeep⟩
  · intro s hs
    obtain ⟨_, hvalid⟩ := get_valid_some_inv hs
    unfold RefreshToken.is_valid RefreshToken.is_revoked at hvalid
    cases hra : s.revoked_at with
    | none => rfl
    | some v => rw [hra] at hvalid; simp at hvalid

/-- Witness for C10 at a concrete store holding one revoked row. -/
theorem revocation_monotone_witness :
    (∃ s, s ∈ (RefreshTokenRepo.revoke
        (⟨[], [⟨1, Token.malformed "rt1", 1, 100, 0, some 5⟩], 2⟩ : DB)
        10 (Token.malformed "rt1")).2.refresh_tokens ∧
        s.id = 1 ∧ s.revoked_at ≠ none) ∧
    (⟨1, Token.malformed "rt1", 1, 100, 0, some 5⟩ : RefreshToken) ∈
      (RefreshTokenRepo.delete_expired
        (⟨[], [⟨1, Token.malformed "rt1", 1, 100, 0, some 5⟩], 2⟩ : DB)
        10).2.refresh_tokens := by
  have h := revocation_monotone
      (⟨[], [⟨1, Token.malformed "rt1", 1, 100, 0, some 5⟩], 2⟩ : DB)
      10 (Token.malformed "rt1") (Token.malformed "new") 1
      ⟨1, Token.malformed "rt1", 1, 100, 0, some 5⟩
      (by decide) (by decide)
  exact ⟨h.1, h.2.2.2.1 (by decide)⟩

/-- C7: `register` with an email (or username) equal to that of ANY
existing user row — the duplicate lookup applies no soft-delete filter, so
soft-deleted rows collide too — fails with the Conflict-style
`BusinessException` and leaves the committed user table's row count
unchanged. -/
theorem register_duplicate_conflict (db : DB) (now : Int) (user_in : UserCreate) (u : User)
    (hu : u ∈ db.users)
    (hdup : u.email = user_in.email ∨ u.username = user_in.username) :
    (∃ msg, AuthService.register db now user_in
        = Except.error (AppError.BusinessException msg)) ∧
    (get_db db (fun d => AuthService.register d now user_in)).2.users.length
      = db.users.length := by
  have herr : ∃ msg, AuthService.register db now user_in
      = Except.error (AppError.BusinessException msg) := by
    unfold AuthService.register
    cases hfe : UserRepo.get_by_email db user_in.email with
    | some v => exact ⟨"邮箱已被注册", rfl⟩
    | none =>
      rcases hdup with he | hn
      · exfalso
        have hsome : (UserRepo.get_by_email db user_in.email).isSome := by
          unfold UserRepo.get_by_email
          rw [List.find?_isSome]
          exact ⟨u, hu, by simp [he]⟩
        rw [hfe] at hsome
        simp at hsome
      · cases hfn : UserRepo.get_by_username db user_in.username with
        | some v => exact ⟨"用户名已被占用", rfl⟩
        | none =>
          exfalso
          have hsome : (UserRepo.get_by_username db user_in.username).isSome := by
            unfold UserRepo.get_by_username
            rw [List.find?_isSome]
            exact ⟨u, hu, by simp [hn]⟩
          rw [hfn] at hsome
          simp at hsome
  refine ⟨herr, ?_⟩
  obtain ⟨msg, hmsg⟩ := herr
  unfold get_db
  simp only [hmsg]

/-- Witness for C7: re-registering the email of a soft-deleted user
(`deleted_at = some 5`) hits the Conflict branch and the committed row
count stays 1. -/
theorem register_duplicate_conflict_witness :
    (∃ msg, AuthService.register
        (⟨[⟨1, "a@x.com", "alice", "bcrypt$pw123456", none, true, false, false, 0, 0, some 5⟩],
          [], 2⟩ : DB)
        50 ⟨"a@x.com", "bob", none, "password123"⟩
        = Except.error (AppError.BusinessException msg)) ∧
    (get_db
        (⟨[⟨1, "a@x.com", "alice", "bcrypt$pw123456", none, true, false, false, 0, 0, some 5⟩],
          [], 2⟩ : DB)
        (fun d => AuthService.register d 50 ⟨"a@x.com", "bob", none, "password123"⟩)).2.users.length
      = 1 := by
  have h := register_duplicate_conflict
      (⟨[⟨1, "a@x.com", "alice", "bcrypt$pw123456", none, true, false, false, 0, 0, some 5⟩],
        [], 2⟩ : DB)
      50 ⟨"a@x.com", "bob", none, "password123"⟩
      ⟨1, "a@x.com", "alice", "bcrypt$pw123456", none, true, false, false, 0, 0, some 5⟩
      (by decide) (Or.inl (by decide))
  exact ⟨h.1, h.2⟩

/-- Inversion of a successful `refresh_tokens` call: the response's refresh
token is freshly minted, its string is absent from the rotated store except
as the newly inserted head row, and the presented token had a valid stored
record. -/
theorem refresh_tokens_ok_inv {db : DB} {now : Int} {rt : Token}
    {resp : TokenResponse} {db2 : DB}
    (h : AuthService.refresh_tokens db now rt = Except.ok (resp, db2)) :
    ∃ user : User,
      resp.refresh_token = create_refresh_token user.id now ∧
      (revokeFirst db.refresh_tokens rt now).any
          (fun x => x.token == resp.refresh_token) = false ∧
      db2.refresh_tokens
        = (⟨db.next_id, resp.refresh_token, user.id,
            now + REFRESH_TOKEN_EXPIRE_DAYS * 86400, now, none⟩ : RefreshToken)
            :: revokeFirst db.refresh_tokens rt now ∧
      (∃ token_obj, RefreshTokenRepo.get_valid_by_token db now rt = some token_obj) := by
  unfold AuthService.refresh_tokens at h
  split at h
  · exact Except.noConfusion h
  · split at h
    · exact Except.noConfusion h
    · split at h
      · exact Except.noConfusion h
      · next token_obj hval =>
        split at h
        · exact Except.noConfusion h
        · next user hget =>
          split at h
          · exact Except.noConfusion h
          · dsimp only at h
            split at h
            · exact Except.noConfusion h
            · next row db2x hcr =>
              injection h with h
              injection h with hresp hdb2
              subst hresp
              subst hdb2
              unfold RefreshTokenRepo.create at hcr
              split at hcr
              · exact Except.noConfusion hcr
              · next hdup =>
                injection hcr with hcr
                injection hcr with hrow hdbx
                refine ⟨user, rfl, ?_, ?_, ⟨token_obj, hval⟩⟩
                · simpa using hdup
                · rw [← hdbx]

/-- C2: refresh tokens are single-use. After one successful
`refresh_tokens t`, any later `refresh_tokens t` against the committed
store fails with `AuthenticationException`: the stored record for `t` was
revoked during rotation, so `get_valid_by_token` no longer returns it. -/
theorem refresh_token_single_use (db : DB) (now now2 : Int) (rt : Token)
    (resp : TokenResponse) (db2 : DB)
    (h : AuthService.refresh_tokens db now rt = Except.ok (resp, db2)) :
    ∃ msg, AuthService.refresh_tokens db2 now2 rt
      = Except.error (AppError.AuthenticationException msg) := by
  obtain ⟨user, hnew, hany, hdb2, token_obj, hval⟩ := refresh_tokens_ok_inv h
  have hbt : RefreshTokenRepo.get_by_token db rt = some token_obj := (get_valid_some_inv hval).1
  unfold RefreshTokenRepo.get_by_token at hbt
  have htok : (token_obj.token == rt) = true :=
    List.find?_some (p := fun r : RefreshToken => r.token == rt) hbt
  have hmemtok : token_obj ∈ db.refresh_tokens := List.mem_of_find?_eq_some hbt
  have hanyrt : (revokeFirst db.refresh_tokens rt now).any
      (fun x => x.token == rt) = true := by
    rw [revokeFirst_any_token]
    exact List.any_eq_true.mpr ⟨token_obj, hmemtok, htok⟩
  have hne : resp.refresh_token ≠ rt := by
    intro hEq
    rw [hEq] at hany
    rw [hany] at hanyrt
    exact Bool.noConfusion hanyrt
  have hfind : RefreshTokenRepo.get_by_token db2 rt = some (token_obj.revoke now) := by
    unfold RefreshTokenRepo.get_by_token
    rw [hdb2]
    rw [List.find?_cons_of_neg (p := fun y : RefreshToken => y.token == rt) _
      (by simp only [beq_iff_eq]; exact hne)]
    exact revokeFirst_find? now hbt
  have hvalid2 : RefreshTokenRepo.get_valid_by_token db2 now2 rt = none := by
    unfold RefreshTokenRepo.get_valid_by_token
    rw [hfind]
    have hnv : (token_obj.revoke now).is_valid now2 = false := by
      unfold RefreshToken.is_valid RefreshToken.is_revoked RefreshToken.revoke
      simp
    simp [hnv]
  cases hdec : decode_token now2 rt with
  | none =>
    refine ⟨"无效的刷新令牌", ?_⟩
    unfold AuthService.refresh_tokens
    simp only [hdec]
  | some c2 =>
    by_cases hty : (c2.type != "refresh") = true
    · refine ⟨"无效的刷新令牌", ?_⟩
      unfold AuthService.refresh_tokens
      simp only [hdec]
      rw [if_pos hty]
    · refine ⟨"刷新令牌已过期或被撤回", ?_⟩
      unfold AuthService.refresh_tokens
      simp only [hdec]
      rw [if_neg hty]
      simp only [hvalid2]

/-- Witness for C2 at a concrete store: alice's stored refresh token is
rotated once at time 10; replaying it at time 20 is rejected. -/
theorem refresh_token_single_use_witness :
    ∃ msg, AuthService.refresh_tokens
        (⟨[⟨1, "a@x.com", "alice", "bcrypt$pw123456", none, true, false, false, 0, 0, none⟩],
          [⟨3, Token.signed ⟨some 1, some 604810, "refresh"⟩, 1, 604810, 10, none⟩,
           ⟨2, Token.signed ⟨some 1, some 1000, "refresh"⟩, 1, 1000, 0, some 10⟩], 4⟩ : DB)
        20 (Token.signed ⟨some 1, some 1000, "refresh"⟩)
      = Except.error (AppError.AuthenticationException msg) := by
  exact refresh_token_single_use
      (⟨[⟨1, "a@x.com", "alice", "bcrypt$pw123456", none, true, false, false, 0, 0, none⟩],
        [⟨2, Token.signed ⟨some 1, some 1000, "refresh"⟩, 1, 1000, 0, none⟩], 3⟩ : DB)
      10 20 (Token.signed ⟨some 1, some 1000, "refresh"⟩)
      ⟨Token.signed ⟨some 1, some 1810, "access"⟩,
       Token.signed ⟨some 1, some 604810, "refresh"⟩, "bearer"⟩
      (⟨[⟨1, "a@x.com", "alice", "bcrypt$pw123456", none, true, false, false, 0, 0, none⟩],
        [⟨3, Token.signed ⟨some 1, some 604810, "refresh"⟩, 1, 604810, 10, none⟩,
         ⟨2, Token.signed ⟨some 1, some 1000, "refresh"⟩, 1, 1000, 0, some 10⟩], 4⟩ : DB)
      (by rfl)

/-- C5: refresh rotation is transactional. Whenever `refresh_tokens` fails
(undecodable token, wrong type, no valid stored record, missing or
inactive user, or an `IntegrityError` while persisting the new token), the
per-request session (`get_db`) rolls back, so the committed store is
exactly the initial one — in particular the presented token's record is
not revoked. On success the committed store contains the brand-new,
unrevoked replacement row alongside the revocation. -/
theorem refresh_rotation_atomic (db : DB) (now : Int) (rt : Token) :
    (∀ e, AuthService.refresh_tokens db now rt = Except.error e →
        get_db db (fun d => AuthService.refresh_tokens d now rt) = (Except.error e, db)) ∧
    (∀ resp db2, AuthService.refresh_tokens db now rt = Except.ok (resp, db2) →
        get_db db (fun d => AuthService.refresh_tokens d now rt) = (Except.ok resp, db2) ∧
        ∃ row, row ∈ db2.refresh_tokens ∧ row.token = resp.refresh_token ∧
          row.revoked_at = none) := by
  constructor
  · intro e he
    unfold get_db
    simp only [he]
  · intro resp db2 h
    obtain ⟨user, hnew, hany, hdb2, hex⟩ := refresh_tokens_ok_inv h
    refine ⟨?_, ⟨db.next_id, resp.refresh_token, user.id,
        now + REFRESH_TOKEN_EXPIRE_DAYS * 86400, now, none⟩, ?_, rfl, rfl⟩
    · unfold get_db
      simp only [h]
    · rw [hdb2]
      exact List.mem_cons_self _ _

/-- Witness for C5: a malformed token leaves the committed store unchanged;
a successful rotation commits an unrevoked replacement row. -/
theorem refresh_rotation_atomic_witness :
    get_db (⟨[], [], 0⟩ : DB)
        (fun d => AuthService.refresh_tokens d 0 (Token.malformed "junk"))
      = (Except.error (AppError.AuthenticationException "无效的刷新令牌"), (⟨[], [], 0⟩ : DB))
    ∧ ∃ row, row ∈ (⟨[⟨1, "a@x.com", "alice", "bcrypt$pw123456", none, true, false, false,
          0, 0, none⟩],
        [⟨3, Token.signed ⟨some 1, some 604810, "refresh"⟩, 1, 604810, 10, none⟩,
         ⟨2, Token.signed ⟨some 1, some 1000, "refresh"⟩, 1, 1000, 0, some 10⟩], 4⟩
          : DB).refresh_tokens ∧
        row.token = Token.signed ⟨some 1, some 604810, "refresh"⟩ ∧
        row.revoked_at = none := by
  constructor
  · exact (refresh_rotation_atomic (⟨[], [], 0⟩ : DB) 0 (Token.malformed "junk")).1
      (AppError.AuthenticationException "无效的刷新令牌") (by rfl)
  · exact ((refresh_rotation_atomic
        (⟨[⟨1, "a@x.com", "alice", "bcrypt$pw123456", none, true, false, false, 0, 0, none⟩],
          [⟨2, Token.signed ⟨some 1, some 1000, "refresh"⟩, 1, 1000, 0, none⟩], 3⟩ : DB)
        10 (Token.signed ⟨some 1, some 1000, "refresh"⟩)).2
      ⟨Token.signed ⟨some 1, some 1810, "access"⟩,
       Token.signed ⟨some 1, some 604810, "refresh"⟩, "bearer"⟩
      (⟨[⟨1, "a@x.com", "alice", "bcrypt$pw123456", none, true, false, false, 0, 0, none⟩],
        [⟨3, Token.signed ⟨some 1, some 604810, "refresh"⟩, 1, 604810, 10, none⟩,
         ⟨2, Token.signed ⟨some 1, some 1000, "refresh"⟩, 1, 1000, 0, some 10⟩], 4⟩ : DB)
      (by rfl)).2

/-- C1: for a registered, active user with the correct password, `login`
followed immediately by `get_current_user` on the returned access token —
with that token absent from the denylist and evaluated at the same instant
(hence before the 30-minute expiry) — returns the same user. The
primary-key hypothesis `huniq` reflects the unique `id` column. -/
theorem login_then_identify (db : DB) (redis : Redis) (now : Int) (user_in : UserLogin)
    (u : User) (resp : TokenResponse) (db2 : DB)
    (hu : UserRepo.get_by_email_or_username db user_in.username = some u)
    (huniq : ∀ v ∈ db.users, v.id = u.id → v = u)
    (hlogin : AuthService.login db now user_in = Except.ok (resp, db2))
    (hbl : redis.existsKey resp.access_token now = false) :
    AuthService.get_current_user db2 redis now resp.access_token = Except.ok u := by
  unfold AuthService.login at hlogin
  split at hlogin
  · exact Except.noConfusion hlogin
  · next user' hu' =>
    have huu : u = user' := by
      rw [hu] at hu'
      injection hu' with huu
    subst huu
    split at hlogin
    · exact Except.noConfusion hlogin
    · next hpw =>
      split at hlogin
      · exact Except.noConfusion hlogin
      · next hact =>
        dsimp only at hlogin
        split at hlogin
        · exact Except.noConfusion hlogin
        · next row db2x hcr =>
          injection hlogin with hlogin
          injection hlogin with hresp hdb2
          subst hresp
          subst hdb2
          unfold RefreshTokenRepo.create at hcr
          split at hcr
          · exact Except.noConfusion hcr
          · next hdup =>
            injection hcr with hcr
            injection hcr with hrow hdbx
            have husers : db2x.users = db.users := by
              rw [← hdbx]
            have hactive : u.is_active = true := by
              simpa using hact
            have hlt : ¬ (now + ACCESS_TOKEN_EXPIRE_MINUTES * 60 ≤ now) := by
              unfold ACCESS_TOKEN_EXPIRE_MINUTES
              omega
            have hdec : decode_token now (create_access_token u.id now)
                = some ⟨some u.id, some (now + ACCESS_TOKEN_EXPIRE_MINUTES * 60), "access"⟩ := by
              simp [create_access_token, decode_token, hlt]
            have hget : UserRepo.get db2x u.id = some u := by
              unfold UserRepo.get
              rw [husers]
              exact find?_eq_of_mem_of_unique (List.mem_of_find?_eq_some hu)
                (by simp)
                (fun b hb hpb => huniq b hb (by simpa using hpb))
            unfold AuthService.get_current_user
            rw [hbl]
            simp [hdec, hget, hactive]

/-- Witness for C1: alice registers, logs in at time 0, and `get_current_user`
on the freshly issued access token returns alice. -/
theorem login_then_identify_witness :
    AuthService.get_current_user
        (⟨[⟨1, "a@x.com", "alice", "bcrypt$pw123456", none, true, false, false, 0, 0, none⟩],
          [⟨2, Token.signed ⟨some 1, some 604800, "refresh"⟩, 1, 604800, 0, none⟩], 3⟩ : DB)
        (⟨[]⟩ : Redis) 0 (Token.signed ⟨some 1, some 1800, "access"⟩)
      = Except.ok
          ⟨1, "a@x.com", "alice", "bcrypt$pw123456", none, true, false, false, 0, 0, none⟩ := by
  exact login_then_identify
      (⟨[⟨1, "a@x.com", "alice", "bcrypt$pw123456", none, true, false, false, 0, 0, none⟩],
        [], 2⟩ : DB)
      (⟨[]⟩ : Redis) 0 ⟨"alice", "pw123456"⟩
      ⟨1, "a@x.com", "alice", "bcrypt$pw123456", none, true, false, false, 0, 0, none⟩
      ⟨Token.signed ⟨some 1, some 1800, "access"⟩,
       Token.signed ⟨some 1, some 604800, "refresh"⟩, "bearer"⟩
      (⟨[⟨1, "a@x.com", "alice", "bcrypt$pw123456", none, true, false, false, 0, 0, none⟩],
        [⟨2, Token.signed ⟨some 1, some 604800, "refresh"⟩, 1, 604800, 0, none⟩], 3⟩ : DB)
      (by rfl) (by decide) (by rfl) (by rfl)
